import Mathlib

/-!
Shallow embedding of the ctrlmarket data-access layer.

The repository stores Users, Products, Orders, OrderItems and
ServiceRequests in a relational store and manipulates them through
parameterized SQL in `src/database/queries.py`.  We embed the store as an
explicit record of row lists and each query function as a pure function on
that state; an SQL `UPDATE ... WHERE p` becomes `updateWhere p f`, a
`SELECT ... WHERE k = ? LIMIT/fetchone` becomes `List.find?`, and the
cursor's `rowcount` becomes `List.countP p`.  Monetary values (SQL REAL)
are embedded as rationals.  The login flow of
`src/tui/screens/login.py` is embedded parameterized over the external
bcrypt `checkpw` primitive.
-/

/-- A row of the User table. -/
structure UserRow where
  user_id : Nat
  name : String
  email : String
  phone : String
  role : String
  password_hash : String
deriving Repr, DecidableEq

/-- A row of the Product table. -/
structure ProductRow where
  product_id : Nat
  name : String
  category : String
  price : ℚ
deriving Repr, DecidableEq

/-- A row of the Order table. -/
structure OrderRow where
  order_id : Nat
  order_date : Nat
  total_price : ℚ
  status : String
  user_id : Nat
deriving Repr, DecidableEq

/-- A row of the OrderItem table. -/
structure OrderItemRow where
  order_item_id : Nat
  quantity : Nat
  unit_price : ℚ
  order_id : Nat
  product_id : Nat
deriving Repr, DecidableEq

/-- A row of the ServiceRequest table; specialist_id is nullable. -/
structure ServiceRequestRow where
  request_id : Nat
  service_type : String
  request_date : Nat
  status : String
  customer_id : Nat
  specialist_id : Option Nat
deriving Repr, DecidableEq

/-- The whole relational store. -/
structure DB where
  users : List UserRow
  products : List ProductRow
  orders : List OrderRow
  orderItems : List OrderItemRow
  requests : List ServiceRequestRow
deriving Repr, DecidableEq

/-- Semantics of an SQL UPDATE statement over a table: every row matching
the WHERE predicate is rewritten by f, all other rows are kept. -/
def updateWhere (p : α → Bool) (f : α → α) (l : List α) : List α :=
  l.map fun x => if p x then f x else x

/-- The session-identity projection returned by authenticate_user
(models.SessionUser): exactly id, name, email and role, no hash. -/
structure SessionUser where
  user_id : Nat
  name : String
  email : String
  role : String
deriving Repr, DecidableEq

/-- Embeds queries.authenticate_user: fetch the first User row with the
given email and project it to a SessionUser (the password is not consulted
by this query). -/
def authenticate_user (db : DB) (email : String) : Option SessionUser :=
  (db.users.find? fun u => u.email == email).map fun r =>
    { user_id := r.user_id, name := r.name, email := r.email, role := r.role }

/-- Embeds queries.get_user_password_hash. -/
def get_user_password_hash (db : DB) (email : String) : Option String :=
  (db.users.find? fun u => u.email == email).map (·.password_hash)

/-- Embeds queries.get_user_by_id. -/
def get_user_by_id (db : DB) (uid : Nat) : Option UserRow :=
  db.users.find? fun u => u.user_id == uid

/-- The UserUpdate payload (models.UserUpdate): every field optional. -/
structure UserUpdate where
  name : Option String := none
  email : Option String := none
  phone : Option String := none
  role : Option String := none
  password : Option String := none
deriving Repr, DecidableEq

/-- True when no field of the payload is supplied, i.e. the dynamic SET
clause of update_user would be empty. -/
def UserUpdate.isEmpty (u : UserUpdate) : Bool :=
  u.name.isNone && u.email.isNone && u.phone.isNone && u.role.isNone &&
    u.password.isNone

/-- The effect of update_user's dynamic SET clause on one row: each
supplied field overwrites the column, each unsupplied field is left as it
was.  Note that a supplied password is written into password_hash verbatim
(queries.py lines 152-155). -/
def applyUserUpdate (u : UserUpdate) (r : UserRow) : UserRow :=
  { r with
    name := u.name.getD r.name
    email := u.email.getD r.email
    phone := u.phone.getD r.phone
    role := u.role.getD r.role
    password_hash := u.password.getD r.password_hash }

/-- Embeds queries.update_user: empty payload returns the current row;
otherwise a dynamic UPDATE runs and rowcount 0 yields none. -/
def update_user (db : DB) (uid : Nat) (u : UserUpdate) :
    Option UserRow × DB :=
  if u.isEmpty then (get_user_by_id db uid, db)
  else
    let matched := db.users.countP fun r => r.user_id == uid
    let db' := { db with
      users := updateWhere (fun r => r.user_id == uid) (applyUserUpdate u)
        db.users }
    if matched = 0 then (none, db') else (get_user_by_id db' uid, db')

/-- Embeds queries.get_product_by_id. -/
def get_product_by_id (db : DB) (pid : Nat) : Option ProductRow :=
  db.products.find? fun p => p.product_id == pid

/-- The ProductUpdate payload (models.ProductUpdate). -/
structure ProductUpdate where
  name : Option String := none
  category : Option String := none
  price : Option ℚ := none
deriving Repr, DecidableEq

/-- True when no field of the product payload is supplied. -/
def ProductUpdate.isEmpty (u : ProductUpdate) : Bool :=
  u.name.isNone && u.category.isNone && u.price.isNone

/-- The effect of update_product's dynamic SET clause on one row. -/
def applyProductUpdate (u : ProductUpdate) (r : ProductRow) : ProductRow :=
  { r with
    name := u.name.getD r.name
    category := u.category.getD r.category
    price := u.price.getD r.price }

/-- Embeds queries.update_product. -/
def update_product (db : DB) (pid : Nat) (u : ProductUpdate) :
    Option ProductRow × DB :=
  if u.isEmpty then (get_product_by_id db pid, db)
  else
    let matched := db.products.countP fun r => r.product_id == pid
    let db' := { db with
      products := updateWhere (fun r => r.product_id == pid)
        (applyProductUpdate u) db.products }
    if matched = 0 then (none, db') else (get_product_by_id db' pid, db')

/-- Embeds queries.delete_product.  Modelled from the spec: schema.sql is
not under src, and per spec section 6 OrderItem.product_id carries a
restrict-delete foreign key, so the DELETE raises an integrity error when
the product is still referenced; the source catches that error and
returns False with the store untouched. -/
def delete_product (db : DB) (pid : Nat) : Bool × DB :=
  if db.products.any (fun p => p.product_id == pid) then
    if db.orderItems.any (fun oi => oi.product_id == pid) then (false, db)
    else
      (true, { db with
        products := db.products.filter fun p => !(p.product_id == pid) })
  else (false, db)

/-- Read-view row of one order item joined with its product
(models.OrderItemWithProduct). -/
structure OrderItemWithProduct where
  order_item_id : Nat
  order_id : Nat
  quantity : Nat
  unit_price : ℚ
  product_id : Nat
  product_name : String
  product_category : String
deriving Repr, DecidableEq

/-- Read view of an order joined with its customer name and items
(models.OrderWithItems). -/
structure OrderWithItems where
  order_id : Nat
  order_date : Nat
  total_price : ℚ
  status : String
  user_id : Nat
  customer_name : String
  items : List OrderItemWithProduct
deriving Repr, DecidableEq

/-- Embeds queries.get_order_by_id: the order row inner-joined with User
for the customer name, plus its items inner-joined with Product. -/
def get_order_by_id (db : DB) (oid : Nat) : Option OrderWithItems :=
  match db.orders.find? fun o => o.order_id == oid with
  | none => none
  | some o =>
    match db.users.find? fun u => u.user_id == o.user_id with
    | none => none
    | some u =>
      let items :=
        (db.orderItems.filter fun oi => oi.order_id == oid).filterMap
          fun oi =>
            (db.products.find? fun p => p.product_id == oi.product_id).map
              fun p =>
                { order_item_id := oi.order_item_id
                  order_id := oi.order_id
                  quantity := oi.quantity
                  unit_price := oi.unit_price
                  product_id := oi.product_id
                  product_name := p.name
                  product_category := p.category }
      some { order_id := o.order_id, order_date := o.order_date
             total_price := o.total_price, status := o.status
             user_id := o.user_id, customer_name := u.name, items := items }

/-- Embeds queries.update_order_status: an unconditional status overwrite
keyed only on order_id (no guard on the current status). -/
def update_order_status (db : DB) (oid : Nat) (status : String) :
    Option OrderWithItems × DB :=
  let matched := db.orders.countP fun o => o.order_id == oid
  let db' := { db with
    orders := updateWhere (fun o => o.order_id == oid)
      (fun o => { o with status := status }) db.orders }
  if matched = 0 then (none, db') else (get_order_by_id db' oid, db')

/-- Embeds queries.cancel_order: a compare-and-swap UPDATE guarded by
WHERE order_id = ? AND status = 'Pending'; returns rowcount > 0. -/
def cancel_order (db : DB) (oid : Nat) : Bool × DB :=
  let p := fun o : OrderRow => o.order_id == oid && o.status == "Pending"
  let matched := db.orders.countP p
  let db' := { db with
    orders := updateWhere p (fun o => { o with status := "Cancelled" })
      db.orders }
  (decide (0 < matched), db')

/-- One line item of an order-creation request (models.OrderItemCreate). -/
structure OrderItemCreate where
  product_id : Nat
  quantity : Nat
deriving Repr, DecidableEq

/-- An order-creation request (models.OrderCreate). -/
structure OrderCreate where
  user_id : Nat
  items : List OrderItemCreate
deriving Repr, DecidableEq

/-- A line item after the price-resolution loop of create_order: the
product id, the requested quantity and the snapshotted unit price. -/
structure ResolvedItem where
  product_id : Nat
  quantity : Nat
  unit_price : ℚ
deriving Repr, DecidableEq

/-- The price-resolution loop of queries.create_order: each item's product
is looked up; the first missing product aborts the whole call,
carrying the offending product id (the ValueError of queries.py line 314). -/
def resolveItems (db : DB) : List OrderItemCreate →
    Except Nat (List ResolvedItem)
  | [] => .ok []
  | it :: rest =>
    match get_product_by_id db it.product_id with
    | none => .error it.product_id
    | some p =>
      (resolveItems db rest).map fun tl =>
        { product_id := it.product_id, quantity := it.quantity
          unit_price := p.price } :: tl

/-- Embeds queries.create_order.  oid is the order id assigned by the
store, itemIds assigns order-item ids, now is the CURRENT_TIMESTAMP.  On
a missing product the surrounding connection context rolls the
transaction back, so the store comes back unchanged; on success the order
row and its item rows are inserted and the composed read view returned. -/
def create_order (db : DB) (data : OrderCreate) (oid : Nat)
    (itemIds : Nat → Nat) (now : Nat) :
    Except Nat (Option OrderWithItems) × DB :=
  match resolveItems db data.items with
  | .error pid => (.error pid, db)
  | .ok resolved =>
    let total : ℚ :=
      resolved.foldl (fun acc r => acc + r.unit_price * (r.quantity : ℚ)) 0
    let orderRow : OrderRow :=
      { order_id := oid, order_date := now, total_price := total
        status := "Pending", user_id := data.user_id }
    let newItems := resolved.enum.map fun ir =>
      ({ order_item_id := itemIds ir.1, quantity := ir.2.quantity
         unit_price := ir.2.unit_price, order_id := oid
         product_id := ir.2.product_id } : OrderItemRow)
    let db' := { db with
      orders := db.orders ++ [orderRow]
      orderItems := db.orderItems ++ newItems }
    (.ok (get_order_by_id db' oid), db')

/-- Read view of a service request joined with the customer and (left
joined) specialist names (models.ServiceRequestWithDetails). -/
structure ServiceRequestWithDetails where
  request_id : Nat
  service_type : String
  request_date : Nat
  status : String
  customer_id : Nat
  specialist_id : Option Nat
  customer_name : String
  specialist_name : Option String
deriving Repr, DecidableEq

/-- Embeds queries.get_service_request_by_id: inner join on the customer,
left join on the specialist. -/
def get_service_request_by_id (db : DB) (rid : Nat) :
    Option ServiceRequestWithDetails :=
  match db.requests.find? fun r => r.request_id == rid with
  | none => none
  | some r =>
    match db.users.find? fun u => u.user_id == r.customer_id with
    | none => none
    | some c =>
      some { request_id := r.request_id, service_type := r.service_type
             request_date := r.request_date, status := r.status
             customer_id := r.customer_id, specialist_id := r.specialist_id
             customer_name := c.name
             specialist_name :=
               r.specialist_id.bind fun sid =>
                 (db.users.find? fun u => u.user_id == sid).map (·.name) }

/-- Embeds queries.update_service_request_status: an unconditional status
overwrite keyed only on request_id. -/
def update_service_request_status (db : DB) (rid : Nat) (status : String) :
    Option ServiceRequestWithDetails × DB :=
  let matched := db.requests.countP fun r => r.request_id == rid
  let db' := { db with
    requests := updateWhere (fun r => r.request_id == rid)
      (fun r => { r with status := status }) db.requests }
  if matched = 0 then (none, db') else (get_service_request_by_id db' rid, db')

/-- Embeds queries.assign_specialist: one conditional UPDATE guarded by
WHERE request_id = ? AND specialist_id IS NULL that sets the specialist
and flips the status to 'In Progress'; rowcount 0 yields none. -/
def assign_specialist (db : DB) (rid sid : Nat) :
    Option ServiceRequestWithDetails × DB :=
  let p := fun r : ServiceRequestRow =>
    r.request_id == rid && r.specialist_id == none
  let matched := db.requests.countP p
  let db' := { db with
    requests := updateWhere p
      (fun r => { r with specialist_id := some sid, status := "In Progress" })
      db.requests }
  if matched = 0 then (none, db') else (get_service_request_by_id db' rid, db')

/-- Python's str.strip on both ends, as an executable function on the
character list (whitespace removed from front and back). -/
def strip (s : String) : String :=
  ⟨(((s.data.dropWhile Char.isWhitespace).reverse.dropWhile
      Char.isWhitespace).reverse)⟩

/-- Outcome of the login screen's action: an inline error message or a
logged-in session user. -/
inductive LoginOutcome
  | failure (msg : String)
  | success (u : SessionUser)
deriving Repr, DecidableEq

/-- Embeds LoginScreen.action_login of src/tui/screens/login.py,
parameterized over the external bcrypt checkpw primitive.  The email is
stripped (Python str.strip); empty inputs short-circuit; a missing or empty stored hash and
a failed password check both render the same inline message. -/
def action_login (checkpw : String → String → Bool) (db : DB)
    (rawEmail password : String) : LoginOutcome :=
  let email := strip rawEmail
  if email = "" || password = "" then
    .failure "Please enter both email and password"
  else
    match get_user_password_hash db email with
    | none => .failure "Invalid email or password"
    | some stored =>
      if stored = "" then .failure "Invalid email or password"
      else if !checkpw password stored then
        .failure "Invalid email or password"
      else
        match authenticate_user db email with
        | some u => .success u
        | none => .failure "Authentication failed"

/-! Helper lemmas about the SQL-statement semantics. -/

theorem updateWhere_of_forall_not {α : Type} (p : α → Bool) (f : α → α)
    (l : List α) (h : ∀ x ∈ l, p x = false) : updateWhere p f l = l := by
  induction l with
  | nil => rfl
  | cons a t ih =>
    have ha := h a (List.mem_cons_self a t)
    have ht : updateWhere p f t = t :=
      ih fun x hx => h x (List.mem_cons_of_mem a hx)
    simp only [updateWhere, List.map_cons, ha, if_neg Bool.false_ne_true]
    simpa [updateWhere] using ht

theorem find?_updateWhere_key {α κ : Type} [BEq κ] [LawfulBEq κ]
    (key : α → κ) (k : κ) (p : α → Bool) (f : α → α)
    (hp : ∀ x, p x = true → key x = k)
    (hf : ∀ x, p x = true → key (f x) = key x) (l : List α) :
    (updateWhere p f l).find? (fun x => key x == k) =
      (l.find? fun x => key x == k).map fun r => if p r then f r else r := by
  induction l with
  | nil => rfl
  | cons a t ih =>
    by_cases hk : key a = k
    · have hkey : key (if p a then f a else a) = k := by
        by_cases hpa : p a = true
        · simp [hpa, hf a hpa, hk]
        · simp [Bool.eq_false_iff.mpr hpa, hk]
      simp only [updateWhere, List.map_cons]
      rw [List.find?_cons_of_pos _ (by simp [hkey]),
        List.find?_cons_of_pos _ (by simp [hk])]
      rfl
    · have hpa : p a = false := by
        by_cases hpa : p a = true
        · exact absurd (hp a hpa) hk
        · exact Bool.eq_false_iff.mpr hpa
      simp only [updateWhere, List.map_cons, hpa,
        if_neg Bool.false_ne_true]
      rw [List.find?_cons_of_neg _ (by simp [hk]),
        List.find?_cons_of_neg _ (by simp [hk])]
      exact ih

theorem find?_updateWhere_frame {α κ : Type} [BEq κ] [LawfulBEq κ]
    (key : α → κ) (k k' : κ) (hne : k' ≠ k) (p : α → Bool) (f : α → α)
    (hp : ∀ x, p x = true → key x = k)
    (hf : ∀ x, p x = true → key (f x) = key x) (l : List α) :
    (updateWhere p f l).find? (fun x => key x == k') =
      l.find? fun x => key x == k' := by
  induction l with
  | nil => rfl
  | cons a t ih =>
    have hkeep : key (if p a then f a else a) = key a := by
      by_cases hpa : p a = true
      · simp [hpa, hf a hpa]
      · simp [Bool.eq_false_iff.mpr hpa]
    by_cases hk : key a = k'
    · have hpa : p a = false := by
        by_cases hpa : p a = true
        · exact absurd (hp a hpa) fun h => hne (hk.symm.trans h)
        · exact Bool.eq_false_iff.mpr hpa
      simp only [updateWhere, List.map_cons, hpa,
        if_neg Bool.false_ne_true]
      rw [List.find?_cons_of_pos _ (by simp [hk]),
        List.find?_cons_of_pos _ (by simp [hk])]
    · simp only [updateWhere, List.map_cons]
      rw [List.find?_cons_of_neg _ (by simp [hkeep, hk]),
        List.find?_cons_of_neg _ (by simp [hk])]
      exact ih

theorem find?_key_eq_of_mem {α κ : Type} [BEq κ] [LawfulBEq κ]
    (key : α → κ) (l : List α) (hnd : (l.map key).Nodup)
    (x : α) (hx : x ∈ l) : (l.find? fun y => key y == key x) = some x := by
  induction l with
  | nil => cases hx
  | cons a t ih =>
    have hnd' : (∀ z ∈ t, ¬ key z = key a) ∧ (t.map key).Nodup := by
      simpa using hnd
    rcases List.mem_cons.mp hx with rfl | hxt
    · exact List.find?_cons_of_pos _ (by simp)
    · have hka : key a ≠ key x := fun h => hnd'.1 x hxt h.symm
      rw [List.find?_cons_of_neg _ (by simp [hka])]
      exact ih hnd'.2 hxt

theorem find?_unique_of_nodup {α κ : Type} [BEq κ] [LawfulBEq κ]
    (key : α → κ) (l : List α) (hnd : (l.map key).Nodup)
    (x y : α) (hx : x ∈ l) (hy : y ∈ l) (hk : key x = key y) : x = y := by
  induction l with
  | nil => cases hx
  | cons a t ih =>
    have hnd' : (∀ z ∈ t, ¬ key z = key a) ∧ (t.map key).Nodup := by
      simpa using hnd
    rcases List.mem_cons.mp hx with rfl | hxt
    · rcases List.mem_cons.mp hy with rfl | hyt
      · rfl
      · exact absurd hk.symm (hnd'.1 y hyt)
    · rcases List.mem_cons.mp hy with rfl | hyt
      · exact absurd hk (hnd'.1 x hxt)
      · exact ih hnd'.2 hxt hyt

/-! Claim C2: cancel_order. -/

/-- C2: cancel_order returns true and sets the order's status to
"Cancelled" exactly when the order exists and its current status is
"Pending"; when the status is "Completed" or "Cancelled", or when no
order has the id, it returns false and leaves the store unchanged. -/
theorem cancel_order_spec (db : DB) (oid : Nat)
    (hnd : (db.orders.map (·.order_id)).Nodup) :
    ((cancel_order db oid).1 = true ↔
        ∃ o ∈ db.orders, o.order_id = oid ∧ o.status = "Pending") ∧
    (∀ o ∈ db.orders, o.order_id = oid → o.status = "Pending" →
        (cancel_order db oid).2.orders.find? (fun x => x.order_id == oid) =
          some { o with status := "Cancelled" }) ∧
    (∀ o ∈ db.orders, o.order_id = oid → o.status ≠ "Pending" →
        cancel_order db oid = (false, db)) ∧
    ((∀ o ∈ db.orders, o.order_id ≠ oid) →
        cancel_order db oid = (false, db)) := by
  refine ⟨?_, ?_, ?_, ?_⟩
  · simp [cancel_order, List.countP_pos_iff]
  · intro o ho hid hpend
    have hkey :
        (cancel_order db oid).2.orders.find? (fun x => x.order_id == oid) =
          ((db.orders.find? fun x => x.order_id == oid).map fun r =>
            if r.order_id == oid && r.status == "Pending" then
              { r with status := "Cancelled" } else r) := by
      simp only [cancel_order]
      exact find?_updateWhere_key (·.order_id) oid
        (fun o => o.order_id == oid && o.status == "Pending")
        (fun o => { o with status := "Cancelled" })
        (fun x hx => by
          have hx' : x.order_id = oid ∧ x.status = "Pending" := by
            simpa using hx
          exact hx'.1)
        (fun x _ => rfl) db.orders
    have hfind : (db.orders.find? fun x => x.order_id == oid) = some o := by
      have := find?_key_eq_of_mem (·.order_id) db.orders hnd o ho
      simpa [hid] using this
    rw [hkey, hfind]
    simp [hid, hpend]
  · intro o ho hid hnp
    have hall : ∀ x ∈ db.orders,
        (x.order_id == oid && x.status == "Pending") = false := by
      intro x hx
      by_cases hxid : x.order_id = oid
      · have : x = o := find?_unique_of_nodup (·.order_id) db.orders hnd x o
          hx ho (by simp [hxid, hid])
        subst this
        simpa using fun _ => hnp
      · simp [hxid]
    have hcount :
        (db.orders.countP fun x =>
          x.order_id == oid && x.status == "Pending") = 0 :=
      List.countP_eq_zero.mpr (by simpa using hall)
    have hupd := updateWhere_of_forall_not
      (fun x : OrderRow => x.order_id == oid && x.status == "Pending")
      (fun x => { x with status := "Cancelled" }) db.orders hall
    simp [cancel_order, hcount, hupd]
  · intro hnone
    have hall : ∀ x ∈ db.orders,
        (x.order_id == oid && x.status == "Pending") = false := by
      intro x hx
      simp [hnone x hx]
    have hcount :
        (db.orders.countP fun x =>
          x.order_id == oid && x.status == "Pending") = 0 :=
      List.countP_eq_zero.mpr (by simpa using hall)
    have hupd := updateWhere_of_forall_not
      (fun x : OrderRow => x.order_id == oid && x.status == "Pending")
      (fun x => { x with status := "Cancelled" }) db.orders hall
    simp [cancel_order, hcount, hupd]

/-- Concrete store used to witness the cancel_order claim: one Pending
order and one Completed order. -/
def dbC2 : DB :=
  { users := [{ user_id := 1, name := "Ada", email := "ada@shop.io",
                phone := "1", role := "Customer", password_hash := "h" }]
    products := []
    orders := [
      { order_id := 1, order_date := 0, total_price := 10,
        status := "Pending", user_id := 1 },
      { order_id := 2, order_date := 0, total_price := 5,
        status := "Completed", user_id := 1 }]
    orderItems := []
    requests := [] }

/-- Witness for C2 at a concrete store. -/
theorem cancel_order_spec_witness :
    ((cancel_order dbC2 1).1 = true ↔
        ∃ o ∈ dbC2.orders, o.order_id = 1 ∧ o.status = "Pending") ∧
    (∀ o ∈ dbC2.orders, o.order_id = 1 → o.status = "Pending" →
        (cancel_order dbC2 1).2.orders.find? (fun x => x.order_id == 1) =
          some { o with status := "Cancelled" }) ∧
    (∀ o ∈ dbC2.orders, o.order_id = 1 → o.status ≠ "Pending" →
        cancel_order dbC2 1 = (false, dbC2)) ∧
    ((∀ o ∈ dbC2.orders, o.order_id ≠ 1) →
        cancel_order dbC2 1 = (false, dbC2)) :=
  cancel_order_spec dbC2 1 (by decide)

/-! Claim C3: terminal states. -/

/-- Concrete store with a Completed order and a Cancelled, unassigned
service request, used to exhibit transitions out of terminal states. -/
def dbC3 : DB :=
  { users := [{ user_id := 1, name := "Ada", email := "ada@shop.io",
                phone := "1", role := "Customer", password_hash := "h" }]
    products := []
    orders := [
      { order_id := 1, order_date := 0, total_price := 10,
        status := "Completed", user_id := 1 }]
    orderItems := []
    requests := [
      { request_id := 1, service_type := "Support", request_date := 0,
        status := "Cancelled", customer_id := 1, specialist_id := none }] }

/-- C3 is false as stated: update_order_status moves a Completed order
back to Pending, update_service_request_status rewrites a Cancelled
request, and assign_specialist moves an unassigned Cancelled request to
In Progress — the data-access layer does not protect terminal states. -/
theorem terminal_states_counterexample :
    (∃ o ∈ dbC3.orders, o.order_id = 1 ∧ o.status = "Completed") ∧
    ((update_order_status dbC3 1 "Pending").2.orders.find?
        (fun x => x.order_id == 1)).map (·.status) = some "Pending" ∧
    (∃ r ∈ dbC3.requests, r.request_id = 1 ∧ r.status = "Cancelled") ∧
    ((update_service_request_status dbC3 1 "Pending").2.requests.find?
        (fun x => x.request_id == 1)).map (·.status) = some "Pending" ∧
    ((assign_specialist dbC3 1 2).2.requests.find?
        (fun x => x.request_id == 1)).map (·.status) = some "In Progress" := by
  decide

/-- C3 (amended): of the four status-mutating operations only cancel_order
enforces terminality — on a store whose rows with the given order id are
all Completed or Cancelled it affects zero rows, returns false and leaves
the store unchanged. -/
theorem cancel_order_preserves_terminal (db : DB) (oid : Nat)
    (hterm : ∀ o ∈ db.orders, o.order_id = oid →
      o.status = "Completed" ∨ o.status = "Cancelled") :
    cancel_order db oid = (false, db) := by
  have hall : ∀ x ∈ db.orders,
      (x.order_id == oid && x.status == "Pending") = false := by
    intro x hx
    by_cases hxid : x.order_id = oid
    · rcases hterm x hx hxid with h | h <;> simp [hxid, h]
    · simp [hxid]
  have hcount :
      (db.orders.countP fun x =>
        x.order_id == oid && x.status == "Pending") = 0 :=
    List.countP_eq_zero.mpr (by simpa using hall)
  have hupd := updateWhere_of_forall_not
    (fun x : OrderRow => x.order_id == oid && x.status == "Pending")
    (fun x => { x with status := "Cancelled" }) db.orders hall
  simp [cancel_order, hcount, hupd]

/-- Witness for the amended C3 at the concrete store. -/
theorem cancel_order_preserves_terminal_witness :
    cancel_order dbC3 1 = (false, dbC3) :=
  cancel_order_preserves_terminal dbC3 1 (by decide)

/-! Claim C1: assign_specialist. -/

/-- Field projection of a successfully composed service-request read view:
the status and specialist of the view are those of the found request row. -/
theorem get_service_request_fields (db : DB) (rid : Nat)
    (d : ServiceRequestWithDetails)
    (h : get_service_request_by_id db rid = some d) :
    ∃ y, (db.requests.find? fun x => x.request_id == rid) = some y ∧
      d.status = y.status ∧ d.specialist_id = y.specialist_id := by
  unfold get_service_request_by_id at h
  cases hf : db.requests.find? fun x => x.request_id == rid with
  | none => rw [hf] at h; dsimp only at h; cases h
  | some y =>
    rw [hf] at h
    dsimp only at h
    cases hu : db.users.find? fun u => u.user_id == y.customer_id with
    | none => rw [hu] at h; dsimp only at h; cases h
    | some c =>
      rw [hu] at h
      dsimp only at h
      injection h with h
      subst h
      exact ⟨y, rfl, rfl, rfl⟩

/-- The WHERE predicate of the assign_specialist UPDATE. -/
def assignPred (rid : Nat) (x : ServiceRequestRow) : Bool :=
  x.request_id == rid && x.specialist_id == none

/-- The SET clause of the assign_specialist UPDATE. -/
def assignSet (sid : Nat) (x : ServiceRequestRow) : ServiceRequestRow :=
  { x with specialist_id := some sid, status := "In Progress" }

theorem assignPred_key (rid : Nat) :
    ∀ x, assignPred rid x = true → x.request_id = rid := by
  intro x hx
  have hx' : x.request_id = rid ∧ x.specialist_id = none := by
    simpa [assignPred] using hx
  exact hx'.1

theorem assignSet_key (rid sid : Nat) :
    ∀ x, assignPred rid x = true →
      (assignSet sid x).request_id = x.request_id := fun _ _ => rfl

/-- C1: assign_specialist succeeds (returns a composed read view) iff the
request exists and its specialist_id is currently null; on success the
returned view's status is exactly "In Progress" and its specialist_id is
the assigning specialist; on an already-assigned request the update
affects zero rows and the call returns none with the store unchanged. -/
theorem assign_specialist_spec (db : DB) (rid sid : Nat)
    (hnd : (db.requests.map (·.request_id)).Nodup)
    (hcust : ∀ r ∈ db.requests, ∃ u ∈ db.users, u.user_id = r.customer_id) :
    ((assign_specialist db rid sid).1.isSome ↔
        ∃ r ∈ db.requests, r.request_id = rid ∧ r.specialist_id = none) ∧
    (∀ d, (assign_specialist db rid sid).1 = some d →
        d.status = "In Progress" ∧ d.specialist_id = some sid) ∧
    (∀ r ∈ db.requests, r.request_id = rid → r.specialist_id ≠ none →
        assign_specialist db rid sid = (none, db)) := by
  have hassign : assign_specialist db rid sid =
      if (db.requests.countP (assignPred rid)) = 0 then
        (none, { db with
          requests := updateWhere (assignPred rid) (assignSet sid)
            db.requests })
      else
        (get_service_request_by_id
          { db with
            requests := updateWhere (assignPred rid) (assignSet sid)
              db.requests } rid,
         { db with
           requests := updateWhere (assignPred rid) (assignSet sid)
             db.requests }) := rfl
  have hsucc : ∀ r ∈ db.requests, r.request_id = rid →
      r.specialist_id = none →
      ∃ d, (assign_specialist db rid sid).1 = some d ∧
        d.status = "In Progress" ∧ d.specialist_id = some sid := by
    intro r hr hrid hrnull
    have hpr : assignPred rid r = true := by simp [assignPred, hrid, hrnull]
    have hm : 0 < db.requests.countP (assignPred rid) :=
      List.countP_pos_iff.mpr ⟨r, hr, hpr⟩
    have hforig :
        (db.requests.find? fun x => x.request_id == rid) = some r := by
      have := find?_key_eq_of_mem (·.request_id) db.requests hnd r hr
      simpa [hrid] using this
    have hfupd :
        ((updateWhere (assignPred rid) (assignSet sid) db.requests).find?
          fun x => x.request_id == rid) = some (assignSet sid r) := by
      rw [find?_updateWhere_key (·.request_id) rid (assignPred rid)
        (assignSet sid) (assignPred_key rid) (assignSet_key rid sid)
        db.requests, hforig]
      simp [hpr]
    obtain ⟨u, hu, huid⟩ := hcust r hr
    have hc' : (db.users.find? fun x => x.user_id == r.customer_id).isSome :=
      List.find?_isSome.mpr ⟨u, hu, by simp [huid]⟩
    obtain ⟨c, hc⟩ := Option.isSome_iff_exists.mp hc'
    refine ⟨{ request_id := r.request_id, service_type := r.service_type
              request_date := r.request_date, status := "In Progress"
              customer_id := r.customer_id, specialist_id := some sid
              customer_name := c.name
              specialist_name :=
                (db.users.find? fun x => x.user_id == sid).map (·.name) },
            ?_, rfl, rfl⟩
    rw [hassign, if_neg (Nat.pos_iff_ne_zero.mp hm)]
    unfold get_service_request_by_id
    dsimp only
    rw [hfupd]
    dsimp only [assignSet]
    rw [hc]
    simp
  refine ⟨⟨?_, ?_⟩, ?_, ?_⟩
  · intro hs
    by_contra hex
    push_neg at hex
    have hall : ∀ x ∈ db.requests, assignPred rid x = false := by
      intro x hx
      by_cases hxid : x.request_id = rid
      · have hxnn := hex x hx hxid
        cases hv : x.specialist_id with
        | none => exact absurd hv hxnn
        | some v => simp [assignPred, hv]
      · simp [assignPred, hxid]
    have hcount : (db.requests.countP (assignPred rid)) = 0 :=
      List.countP_eq_zero.mpr (by simpa using hall)
    rw [hassign, if_pos hcount] at hs
    cases hs
  · rintro ⟨r, hr, hrid, hrnull⟩
    obtain ⟨d, hd, _⟩ := hsucc r hr hrid hrnull
    exact hd ▸ rfl
  · intro d hd
    have hm : (db.requests.countP (assignPred rid)) ≠ 0 := by
      intro h0
      rw [hassign, if_pos h0] at hd
      cases hd
    obtain ⟨r, hr, hpr⟩ := List.countP_pos_iff.mp (Nat.pos_of_ne_zero hm)
    have hr' : r.request_id = rid ∧ r.specialist_id = none := by
      simpa [assignPred] using hpr
    obtain ⟨d', hd', hst, hsp⟩ := hsucc r hr hr'.1 hr'.2
    rw [hd] at hd'
    injection hd' with hd'
    exact hd' ▸ ⟨hst, hsp⟩
  · intro r hr hrid hrnn
    have hall : ∀ x ∈ db.requests, assignPred rid x = false := by
      intro x hx
      by_cases hxid : x.request_id = rid
      · have hxr : x = r := find?_unique_of_nodup (·.request_id) db.requests
          hnd x r hx hr (by simp [hxid, hrid])
        have hxnn : x.specialist_id ≠ none := by rw [hxr]; exact hrnn
        cases hv : x.specialist_id with
        | none => exact absurd hv hxnn
        | some v => simp [assignPred, hv]
      · simp [assignPred, hxid]
    have hcount : (db.requests.countP (assignPred rid)) = 0 :=
      List.countP_eq_zero.mpr (by simpa using hall)
    have hupd := updateWhere_of_forall_not (assignPred rid) (assignSet sid)
      db.requests hall
    rw [hassign, if_pos hcount, hupd]

/-- Concrete store used to witness the assign_specialist claim: one
unassigned Pending request whose customer exists. -/
def dbC1 : DB :=
  { users := [
      { user_id := 1, name := "Cleo", email := "cleo@shop.io", phone := "2",
        role := "Customer", password_hash := "h" },
      { user_id := 2, name := "Sam", email := "sam@shop.io", phone := "3",
        role := "Specialist", password_hash := "h" }]
    products := []
    orders := []
    orderItems := []
    requests := [
      { request_id := 5, service_type := "Installation", request_date := 0,
        status := "Pending", customer_id := 1, specialist_id := none }] }

/-- Witness for C1 at a concrete store. -/
theorem assign_specialist_spec_witness :
    ((assign_specialist dbC1 5 2).1.isSome ↔
        ∃ r ∈ dbC1.requests, r.request_id = 5 ∧ r.specialist_id = none) ∧
    (∀ d, (assign_specialist dbC1 5 2).1 = some d →
        d.status = "In Progress" ∧ d.specialist_id = some 2) ∧
    (∀ r ∈ dbC1.requests, r.request_id = 5 → r.specialist_id ≠ none →
        assign_specialist dbC1 5 2 = (none, dbC1)) :=
  assign_specialist_spec dbC1 5 2 (by decide) (by decide)

/-! Claim C9: delete_product. -/

/-- C9: deleting a product referenced by at least one OrderItem returns
false and leaves the store unchanged (the restrict violation is downgraded
to the boolean), so the product still exists; deleting an existing
unreferenced product returns true and removes the row. -/
theorem delete_product_spec (db : DB) (pid : Nat) :
    ((∃ p ∈ db.products, p.product_id = pid) →
      (∃ oi ∈ db.orderItems, oi.product_id = pid) →
        delete_product db pid = (false, db)) ∧
    ((∃ p ∈ db.products, p.product_id = pid) →
      (∀ oi ∈ db.orderItems, oi.product_id ≠ pid) →
        (delete_product db pid).1 = true ∧
        ((delete_product db pid).2.products.find?
          fun p => p.product_id == pid) = none) := by
  constructor
  · rintro ⟨p, hp, hpid⟩ ⟨oi, hoi, hopid⟩
    have h1 : db.products.any (fun x => x.product_id == pid) = true :=
      List.any_eq_true.mpr ⟨p, hp, by simp [hpid]⟩
    have h2 : db.orderItems.any (fun x => x.product_id == pid) = true :=
      List.any_eq_true.mpr ⟨oi, hoi, by simp [hopid]⟩
    simp [delete_product, h1, h2]
  · rintro ⟨p, hp, hpid⟩ hnone
    have h1 : db.products.any (fun x => x.product_id == pid) = true :=
      List.any_eq_true.mpr ⟨p, hp, by simp [hpid]⟩
    have h2 : db.orderItems.any (fun x => x.product_id == pid) = false := by
      rw [List.any_eq_false]
      intro oi hoi
      simp [hnone oi hoi]
    refine ⟨by simp [delete_product, h1, h2], ?_⟩
    simp only [delete_product, h1, h2, if_true, Bool.false_eq_true,
      if_false]
    rw [List.find?_eq_none]
    intro x hx
    simpa using (List.mem_filter.mp hx).2

/-- Concrete store used to witness the delete_product claim: product 1 is
referenced by an order item, product 2 is not. -/
def dbC9 : DB :=
  { users := [{ user_id := 1, name := "Ada", email := "ada@shop.io",
                phone := "1", role := "Customer", password_hash := "h" }]
    products := [
      { product_id := 1, name := "Router", category := "Network", price := 10 },
      { product_id := 2, name := "Switch", category := "Network", price := 25 }]
    orders := [
      { order_id := 1, order_date := 0, total_price := 10,
        status := "Pending", user_id := 1 }]
    orderItems := [
      { order_item_id := 1, quantity := 1, unit_price := 10,
        order_id := 1, product_id := 1 }]
    requests := [] }

/-- Witness for C9 at a concrete store. -/
theorem delete_product_spec_witness :
    (delete_product dbC9 1 = (false, dbC9) ∧
      get_product_by_id dbC9 1 = some
        { product_id := 1, name := "Router", category := "Network",
          price := 10 }) ∧
    ((delete_product dbC9 2).1 = true ∧
      ((delete_product dbC9 2).2.products.find?
        fun p => p.product_id == 2) = none) :=
  ⟨⟨(delete_product_spec dbC9 1).1 (by decide) (by decide), by decide⟩,
   (delete_product_spec dbC9 2).2 (by decide) (by decide)⟩

/-! Claim C8: partial (PATCH) updates. -/

theorem applyUserUpdate_empty (u : UserUpdate) (h : u.isEmpty = true)
    (r : UserRow) : applyUserUpdate u r = r := by
  have h' : u.name = none ∧ u.email = none ∧ u.phone = none ∧
      u.role = none ∧ u.password = none := by
    simpa [UserUpdate.isEmpty, Option.isNone_iff_eq_none, and_assoc] using h
  obtain ⟨h1, h2, h3, h4, h5⟩ := h'
  simp [applyUserUpdate, h1, h2, h3, h4, h5]

theorem applyProductUpdate_empty (u : ProductUpdate) (h : u.isEmpty = true)
    (r : ProductRow) : applyProductUpdate u r = r := by
  have h' : u.name = none ∧ u.category = none ∧ u.price = none := by
    simpa [ProductUpdate.isEmpty, Option.isNone_iff_eq_none, and_assoc]
      using h
  obtain ⟨h1, h2, h3⟩ := h'
  simp [applyProductUpdate, h1, h2, h3]

theorem applyUserUpdate_key (uid : Nat) (u : UserUpdate) :
    ∀ x : UserRow, (x.user_id == uid) = true →
      (applyUserUpdate u x).user_id = x.user_id := fun _ _ => rfl

theorem applyProductUpdate_key (pid : Nat) (u : ProductUpdate) :
    ∀ x : ProductRow, (x.product_id == pid) = true →
      (applyProductUpdate u x).product_id = x.product_id := fun _ _ => rfl

/-- C8: for an existing row, update_user / update_product write exactly
the supplied (non-None) fields and keep every unsupplied field, return the
refreshed entity, and leave all rows with a different id untouched; a
zero-field update is a no-op returning the current entity; an id matching
no row yields none with the store unchanged. -/
theorem partial_update_spec (db : DB) (uid : Nat) (uu : UserUpdate)
    (pid : Nat) (pu : ProductUpdate)
    (hndU : (db.users.map (·.user_id)).Nodup)
    (hndP : (db.products.map (·.product_id)).Nodup) :
    (∀ r ∈ db.users, r.user_id = uid →
        (update_user db uid uu).1 = some (applyUserUpdate uu r) ∧
        ((update_user db uid uu).2.users.find? fun x => x.user_id == uid) =
          some (applyUserUpdate uu r) ∧
        ∀ k, k ≠ uid →
          ((update_user db uid uu).2.users.find? fun x => x.user_id == k) =
            db.users.find? fun x => x.user_id == k) ∧
    (uu.isEmpty = true →
        update_user db uid uu = (get_user_by_id db uid, db)) ∧
    ((∀ r ∈ db.users, r.user_id ≠ uid) →
        update_user db uid uu = (none, db)) ∧
    (∀ r ∈ db.products, r.product_id = pid →
        (update_product db pid pu).1 = some (applyProductUpdate pu r) ∧
        ((update_product db pid pu).2.products.find?
          fun x => x.product_id == pid) = some (applyProductUpdate pu r) ∧
        ∀ k, k ≠ pid →
          ((update_product db pid pu).2.products.find?
            fun x => x.product_id == k) =
            db.products.find? fun x => x.product_id == k) ∧
    (pu.isEmpty = true →
        update_product db pid pu = (get_product_by_id db pid, db)) ∧
    ((∀ r ∈ db.products, r.product_id ≠ pid) →
        update_product db pid pu = (none, db)) := by
  have hfindU : ∀ r ∈ db.users, r.user_id = uid →
      (db.users.find? fun x => x.user_id == uid) = some r := by
    intro r hr hrid
    have := find?_key_eq_of_mem (·.user_id) db.users hndU r hr
    simpa [hrid] using this
  have hfindP : ∀ r ∈ db.products, r.product_id = pid →
      (db.products.find? fun x => x.product_id == pid) = some r := by
    intro r hr hrid
    have := find?_key_eq_of_mem (·.product_id) db.products hndP r hr
    simpa [hrid] using this
  refine ⟨?_, ?_, ?_, ?_, ?_, ?_⟩
  · intro r hr hrid
    by_cases he : uu.isEmpty = true
    · have hid : applyUserUpdate uu r = r := applyUserUpdate_empty uu he r
      refine ⟨?_, ?_, fun k _ => ?_⟩ <;>
        simp [update_user, he, get_user_by_id, hfindU r hr hrid, hid]
    · have hne : uu.isEmpty = false := Bool.eq_false_iff.mpr he
      have hm : (db.users.countP fun x => x.user_id == uid) ≠ 0 :=
        Nat.pos_iff_ne_zero.mp
          (List.countP_pos_iff.mpr ⟨r, hr, by simp [hrid]⟩)
      have hkey :
          ((updateWhere (fun x : UserRow => x.user_id == uid)
            (applyUserUpdate uu) db.users).find?
              fun x => x.user_id == uid) =
            some (applyUserUpdate uu r) := by
        rw [find?_updateWhere_key (·.user_id) uid
          (fun x : UserRow => x.user_id == uid) (applyUserUpdate uu)
          (fun x hx => by simpa using hx) (applyUserUpdate_key uid uu)
          db.users, hfindU r hr hrid]
        simp [hrid]
      refine ⟨?_, ?_, fun k hk => ?_⟩
      · simp [update_user, hne, hm, get_user_by_id, hkey]
      · simp [update_user, hne, hm, hkey]
      · have hframe := find?_updateWhere_frame (·.user_id) uid k hk
          (fun x : UserRow => x.user_id == uid) (applyUserUpdate uu)
          (fun x hx => by simpa using hx) (applyUserUpdate_key uid uu)
          db.users
        simp only [update_user, hne, Bool.false_eq_true, if_false]
        simp only [if_neg hm]
        exact hframe
  · intro he
    simp [update_user, he]
  · intro hnone
    by_cases he : uu.isEmpty = true
    · have : (db.users.find? fun x => x.user_id == uid) = none :=
        List.find?_eq_none.mpr fun x hx => by simp [hnone x hx]
      simp [update_user, he, get_user_by_id, this]
    · have hne : uu.isEmpty = false := Bool.eq_false_iff.mpr he
      have hall : ∀ x ∈ db.users, (x.user_id == uid) = false := by
        intro x hx
        simp [hnone x hx]
      have hm : (db.users.countP fun x => x.user_id == uid) = 0 :=
        List.countP_eq_zero.mpr (by simpa using hall)
      have hupd := updateWhere_of_forall_not
        (fun x : UserRow => x.user_id == uid) (applyUserUpdate uu)
        db.users hall
      simp [update_user, hne, hm, hupd]
  · intro r hr hrid
    by_cases he : pu.isEmpty = true
    · have hid : applyProductUpdate pu r = r := applyProductUpdate_empty pu he r
      refine ⟨?_, ?_, fun k _ => ?_⟩ <;>
        simp [update_product, he, get_product_by_id, hfindP r hr hrid, hid]
    · have hne : pu.isEmpty = false := Bool.eq_false_iff.mpr he
      have hm : (db.products.countP fun x => x.product_id == pid) ≠ 0 :=
        Nat.pos_iff_ne_zero.mp
          (List.countP_pos_iff.mpr ⟨r, hr, by simp [hrid]⟩)
      have hkey :
          ((updateWhere (fun x : ProductRow => x.product_id == pid)
            (applyProductUpdate pu) db.products).find?
              fun x => x.product_id == pid) =
            some (applyProductUpdate pu r) := by
        rw [find?_updateWhere_key (·.product_id) pid
          (fun x : ProductRow => x.product_id == pid) (applyProductUpdate pu)
          (fun x hx => by simpa using hx) (applyProductUpdate_key pid pu)
          db.products, hfindP r hr hrid]
        simp [hrid]
      refine ⟨?_, ?_, fun k hk => ?_⟩
      · simp [update_product, hne, hm, get_product_by_id, hkey]
      · simp [update_product, hne, hm, hkey]
      · have hframe := find?_updateWhere_frame (·.product_id) pid k hk
          (fun x : ProductRow => x.product_id == pid) (applyProductUpdate pu)
          (fun x hx => by simpa using hx) (applyProductUpdate_key pid pu)
          db.products
        simp only [update_product, hne, Bool.false_eq_true, if_false]
        simp only [if_neg hm]
        exact hframe
  · intro he
    simp [update_product, he]
  · intro hnone
    by_cases he : pu.isEmpty = true
    · have : (db.products.find? fun x => x.product_id == pid) = none :=
        List.find?_eq_none.mpr fun x hx => by simp [hnone x hx]
      simp [update_product, he, get_product_by_id, this]
    · have hne : pu.isEmpty = false := Bool.eq_false_iff.mpr he
      have hall : ∀ x ∈ db.products, (x.product_id == pid) = false := by
        intro x hx
        simp [hnone x hx]
      have hm : (db.products.countP fun x => x.product_id == pid) = 0 :=
        List.countP_eq_zero.mpr (by simpa using hall)
      have hupd := updateWhere_of_forall_not
        (fun x : ProductRow => x.product_id == pid) (applyProductUpdate pu)
        db.products hall
      simp [update_product, hne, hm, hupd]

/-- Concrete store and payloads used to witness the partial-update claim. -/
def dbC8 : DB :=
  { users := [
      { user_id := 1, name := "Ada", email := "ada@shop.io", phone := "1",
        role := "Customer", password_hash := "h" }]
    products := [
      { product_id := 7, name := "Router", category := "Network",
        price := 10 }]
    orders := []
    orderItems := []
    requests := [] }

/-- A one-field user payload for the witness. -/
def uuC8 : UserUpdate := { phone := some "999" }

/-- A one-field product payload for the witness. -/
def puC8 : ProductUpdate := { price := some 12 }

/-- Witness for C8 at a concrete store. -/
theorem partial_update_spec_witness :
    (∀ r ∈ dbC8.users, r.user_id = 1 →
        (update_user dbC8 1 uuC8).1 = some (applyUserUpdate uuC8 r) ∧
        ((update_user dbC8 1 uuC8).2.users.find? fun x => x.user_id == 1) =
          some (applyUserUpdate uuC8 r) ∧
        ∀ k, k ≠ 1 →
          ((update_user dbC8 1 uuC8).2.users.find? fun x => x.user_id == k) =
            dbC8.users.find? fun x => x.user_id == k) ∧
    (uuC8.isEmpty = true →
        update_user dbC8 1 uuC8 = (get_user_by_id dbC8 1, dbC8)) ∧
    ((∀ r ∈ dbC8.users, r.user_id ≠ 1) →
        update_user dbC8 1 uuC8 = (none, dbC8)) ∧
    (∀ r ∈ dbC8.products, r.product_id = 7 →
        (update_product dbC8 7 puC8).1 = some (applyProductUpdate puC8 r) ∧
        ((update_product dbC8 7 puC8).2.products.find?
          fun x => x.product_id == 7) = some (applyProductUpdate puC8 r) ∧
        ∀ k, k ≠ 7 →
          ((update_product dbC8 7 puC8).2.products.find?
            fun x => x.product_id == k) =
            dbC8.products.find? fun x => x.product_id == k) ∧
    (puC8.isEmpty = true →
        update_product dbC8 7 puC8 = (get_product_by_id dbC8 7, dbC8)) ∧
    ((∀ r ∈ dbC8.products, r.product_id ≠ 7) →
        update_product dbC8 7 puC8 = (none, dbC8)) :=
  partial_update_spec dbC8 1 uuC8 7 puC8 (by decide) (by decide)

/-! Claims C6 and C7: authentication. -/

/-- The login flow succeeds only through a found user row whose stored
hash verifies: the core inversion lemma for the action_login embedding. -/
theorem action_login_success (checkpw : String → String → Bool) (db : DB)
    (rawEmail password : String) (u : SessionUser)
    (h : action_login checkpw db rawEmail password = .success u) :
    ∃ r, (db.users.find? fun x => x.email == strip rawEmail) = some r ∧
      r.password_hash ≠ "" ∧
      checkpw password r.password_hash = true ∧
      u = { user_id := r.user_id, name := r.name, email := r.email,
            role := r.role } := by
  unfold action_login at h
  by_cases he : strip rawEmail = ""
  · simp [he] at h
  by_cases hpwd : password = ""
  · simp [he, hpwd] at h
  rw [if_neg (by simp [he, hpwd])] at h
  cases hf : db.users.find? fun x => x.email == strip rawEmail with
  | none =>
    have hgp : get_user_password_hash db (strip rawEmail) = none := by
      rw [get_user_password_hash, hf]; rfl
    rw [hgp] at h
    cases h
  | some r =>
    have hgp : get_user_password_hash db (strip rawEmail) =
        some r.password_hash := by
      rw [get_user_password_hash, hf]; rfl
    rw [hgp] at h
    dsimp only at h
    by_cases hs : r.password_hash = ""
    · rw [if_pos hs] at h; cases h
    rw [if_neg hs] at h
    cases hc : checkpw password r.password_hash with
    | false => rw [hc] at h; simp at h
    | true =>
      rw [hc] at h
      simp only [Bool.not_true, Bool.false_eq_true, if_false] at h
      have hau : authenticate_user db (strip rawEmail) =
          some { user_id := r.user_id, name := r.name, email := r.email,
                 role := r.role } := by
        rw [authenticate_user, hf]; rfl
      rw [hau] at h
      dsimp only at h
      injection h with h
      exact ⟨r, rfl, hs, hc, h.symm⟩

/-- C6: the login flow yields a logged-in session only when a user row
with the (trimmed) email exists and the supplied plaintext verifies
against that row's stored hash; the session object is then exactly the
four-field projection of that row (the SessionUser type has no hash
field); a missing email or a failed verification never yields a session. -/
theorem action_login_spec (checkpw : String → String → Bool) (db : DB)
    (rawEmail password : String) :
    (∀ u, action_login checkpw db rawEmail password = .success u →
        ∃ r, (db.users.find? fun x => x.email == strip rawEmail) = some r ∧
          checkpw password r.password_hash = true ∧
          u = { user_id := r.user_id, name := r.name, email := r.email,
                role := r.role }) ∧
    ((db.users.find? fun x => x.email == strip rawEmail) = none →
        ∀ u, action_login checkpw db rawEmail password ≠ .success u) ∧
    (∀ r, (db.users.find? fun x => x.email == strip rawEmail) = some r →
        checkpw password r.password_hash = false →
        ∀ u, action_login checkpw db rawEmail password ≠ .success u) := by
  refine ⟨?_, ?_, ?_⟩
  · intro u h
    obtain ⟨r, hr, -, hc, hu⟩ :=
      action_login_success checkpw db rawEmail password u h
    exact ⟨r, hr, hc, hu⟩
  · intro hf u h
    obtain ⟨r, hr, -, -, -⟩ :=
      action_login_success checkpw db rawEmail password u h
    rw [hf] at hr
    cases hr
  · intro r hf hc u h
    obtain ⟨r', hr', -, hc', -⟩ :=
      action_login_success checkpw db rawEmail password u h
    rw [hf] at hr'
    injection hr' with hr'
    rw [hr'] at hc
    rw [hc] at hc'
    cases hc'

/-- Concrete store used to witness the authentication claims. -/
def dbLogin : DB :=
  { users := [{ user_id := 3, name := "Eve", email := "eve@shop.io",
                phone := "5", role := "Admin", password_hash := "H1" }]
    products := []
    orders := []
    orderItems := []
    requests := [] }

/-- A concrete stand-in for the external bcrypt check used in witnesses:
accepts exactly the pair of the right plaintext and the stored tag. -/
def chkW : String → String → Bool := fun p h => p == "pw" && h == "H1"

/-- Witness for C6 at a concrete store: a successful login yields exactly
the four-field projection of the found row. -/
theorem action_login_spec_witness :
    ∃ r, (dbLogin.users.find? fun x => x.email == strip "eve@shop.io") =
        some r ∧
      chkW "pw" r.password_hash = true ∧
      ({ user_id := 3, name := "Eve", email := "eve@shop.io",
         role := "Admin" } : SessionUser) =
        { user_id := r.user_id, name := r.name, email := r.email,
          role := r.role } :=
  (action_login_spec chkW dbLogin "eve@shop.io" "pw").1
    { user_id := 3, name := "Eve", email := "eve@shop.io", role := "Admin" }
    (by decide)

/-- C7: authenticating with an unknown email and authenticating with a
known email but a non-verifying password produce the identical externally
visible outcome, the inline "Invalid email or password" failure. -/
theorem auth_failure_indistinguishable (checkpw : String → String → Bool)
    (db : DB) (e1 p1 e2 p2 : String)
    (he1 : strip e1 ≠ "") (hp1 : p1 ≠ "")
    (hu : (db.users.find? fun x => x.email == strip e1) = none)
    (he2 : strip e2 ≠ "") (hp2 : p2 ≠ "")
    (r : UserRow)
    (hr : (db.users.find? fun x => x.email == strip e2) = some r)
    (hhash : r.password_hash ≠ "")
    (hchk : checkpw p2 r.password_hash = false) :
    action_login checkpw db e1 p1 = .failure "Invalid email or password" ∧
    action_login checkpw db e2 p2 = action_login checkpw db e1 p1 := by
  have h1 : action_login checkpw db e1 p1 =
      .failure "Invalid email or password" := by
    unfold action_login
    rw [if_neg (by simp [he1, hp1])]
    have hgp : get_user_password_hash db (strip e1) = none := by
      rw [get_user_password_hash, hu]; rfl
    rw [hgp]
  have h2 : action_login checkpw db e2 p2 =
      .failure "Invalid email or password" := by
    unfold action_login
    rw [if_neg (by simp [he2, hp2])]
    have hgp : get_user_password_hash db (strip e2) =
        some r.password_hash := by
      rw [get_user_password_hash, hr]; rfl
    rw [hgp]
    dsimp only
    simp [hhash, hchk]
  exact ⟨h1, h2.trans h1.symm⟩

/-- A bcrypt stand-in that rejects everything, for the C7 witness. -/
def chkNone : String → String → Bool := fun _ _ => false

/-- Witness for C7 at a concrete store: unknown email "ghost@shop.io" and
known email "eve@shop.io" with a wrong password give the same outcome. -/
theorem auth_failure_indistinguishable_witness :
    action_login chkNone dbLogin "ghost@shop.io" "x" =
      .failure "Invalid email or password" ∧
    action_login chkNone dbLogin "eve@shop.io" "wrong" =
      action_login chkNone dbLogin "ghost@shop.io" "x" :=
  auth_failure_indistinguishable chkNone dbLogin "ghost@shop.io" "x"
    "eve@shop.io" "wrong" (by decide) (by decide) (by decide) (by decide)
    (by decide)
    { user_id := 3, name := "Eve", email := "eve@shop.io",
      phone := "5", role := "Admin", password_hash := "H1" }
    (by decide) (by decide) (by decide)

/-! Claim C10: password written verbatim by update_user. -/

theorem find?_updateWhere_of_unique {α κ : Type} [BEq κ] [LawfulBEq κ]
    (key : α → κ) (l : List α) (hnd : (l.map key).Nodup)
    (p : α → Bool) (f : α → α) (hf : ∀ x, key (f x) = key x)
    (x : α) (hx : x ∈ l) :
    (updateWhere p f l).find? (fun y => key y == key x) =
      some (if p x then f x else x) := by
  induction l with
  | nil => cases hx
  | cons a t ih =>
    have hnd' : (∀ z ∈ t, ¬ key z = key a) ∧ (t.map key).Nodup := by
      simpa using hnd
    have hkeep : key (if p a then f a else a) = key a := by
      by_cases hpa : p a = true
      · simp [hpa, hf]
      · simp [Bool.eq_false_iff.mpr hpa]
    rcases List.mem_cons.mp hx with rfl | hxt
    · exact List.find?_cons_of_pos _ (by simp [hkeep])
    · have hka : key a ≠ key x := fun h => hnd'.1 x hxt h.symm
      rw [updateWhere, List.map_cons,
        List.find?_cons_of_neg _ (by simp [hkeep, hka])]
      exact ih hnd'.2 hxt

theorem applyUserUpdate_email (p : String) :
    ∀ x : UserRow,
      (applyUserUpdate { password := some p } x).email = x.email :=
  fun _ => rfl

/-- C10: update_user with only a password supplied stores the supplied
string verbatim as password_hash — the data-access layer performs no
hashing — so a later login with that plaintext, under any bcrypt-style
check that rejects the pair (p, p) (a plaintext is not a valid hash of
itself), fails with the invalid-credentials outcome. -/
theorem update_user_password_verbatim (db : DB) (uid : Nat) (p : String)
    (hndU : (db.users.map (·.user_id)).Nodup)
    (hndE : (db.users.map (·.email)).Nodup)
    (r : UserRow) (hr : r ∈ db.users) (hid : r.user_id = uid)
    (checkpw : String → String → Bool) (hchk : checkpw p p = false)
    (hstrip : strip r.email = r.email) (hne : r.email ≠ "") (hpne : p ≠ "") :
    (update_user db uid { password := some p }).1 =
      some { r with password_hash := p } ∧
    get_user_password_hash (update_user db uid { password := some p }).2
      r.email = some p ∧
    action_login checkpw (update_user db uid { password := some p }).2
      r.email p = .failure "Invalid email or password" := by
  have hemptyF : (UserUpdate.isEmpty { password := some p }) = false := rfl
  have hm : (db.users.countP fun x => x.user_id == uid) ≠ 0 :=
    Nat.pos_iff_ne_zero.mp (List.countP_pos_iff.mpr ⟨r, hr, by simp [hid]⟩)
  have happly : applyUserUpdate { password := some p } r =
      { r with password_hash := p } := rfl
  have hkey :
      ((updateWhere (fun x : UserRow => x.user_id == uid)
        (applyUserUpdate { password := some p }) db.users).find?
          fun x => x.user_id == uid) = some { r with password_hash := p } := by
    rw [find?_updateWhere_key (·.user_id) uid
      (fun x : UserRow => x.user_id == uid)
      (applyUserUpdate { password := some p })
      (fun x hx => by simpa using hx)
      (applyUserUpdate_key uid { password := some p }) db.users]
    have hfind : (db.users.find? fun x => x.user_id == uid) = some r := by
      have := find?_key_eq_of_mem (·.user_id) db.users hndU r hr
      simpa [hid] using this
    rw [hfind]
    simp [hid, happly]
  have h1 : (update_user db uid { password := some p }).1 =
      some { r with password_hash := p } := by
    simp [update_user, hemptyF, hm, get_user_by_id, hkey]
  have hemail :
      ((updateWhere (fun x : UserRow => x.user_id == uid)
        (applyUserUpdate { password := some p }) db.users).find?
          fun y => y.email == r.email) = some { r with password_hash := p } := by
    have := find?_updateWhere_of_unique (·.email) db.users hndE
      (fun x : UserRow => x.user_id == uid)
      (applyUserUpdate { password := some p }) (applyUserUpdate_email p) r hr
    rw [this]
    simp [hid, happly]
  have h2 : get_user_password_hash
      (update_user db uid { password := some p }).2 r.email = some p := by
    simp only [update_user, hemptyF, Bool.false_eq_true, if_false,
      if_neg hm]
    rw [get_user_password_hash]
    dsimp only
    rw [hemail]
    rfl
  refine ⟨h1, h2, ?_⟩
  unfold action_login
  rw [if_neg (by simp [hstrip, hne, hpne])]
  rw [show get_user_password_hash
      (update_user db uid { password := some p }).2 (strip r.email) = some p
    by rw [hstrip]; exact h2]
  dsimp only
  rw [if_neg hpne, hchk]
  rfl

/-- Concrete store used to witness the verbatim-password claim. -/
def dbC10 : DB :=
  { users := [{ user_id := 4, name := "Bob", email := "bob@shop.io",
                phone := "7", role := "Customer",
                password_hash := "OLDHASH" }]
    products := []
    orders := []
    orderItems := []
    requests := [] }

/-- Witness for C10 at a concrete store. -/
theorem update_user_password_verbatim_witness :
    (update_user dbC10 4 { password := some "hunter2" }).1 =
      some { user_id := 4, name := "Bob", email := "bob@shop.io",
             phone := "7", role := "Customer", password_hash := "hunter2" } ∧
    get_user_password_hash
      (update_user dbC10 4 { password := some "hunter2" }).2 "bob@shop.io" =
      some "hunter2" ∧
    action_login chkNone
      (update_user dbC10 4 { password := some "hunter2" }).2 "bob@shop.io"
      "hunter2" = .failure "Invalid email or password" :=
  update_user_password_verbatim dbC10 4 "hunter2" (by decide) (by decide)
    { user_id := 4, name := "Bob", email := "bob@shop.io", phone := "7",
      role := "Customer", password_hash := "OLDHASH" }
    (by decide) (by decide) chkNone (by decide) (by decide) (by decide)
    (by decide)

/-! Claim C5: order creation aborts on a missing product. -/

/-- The price-resolution loop fails on the first missing product,
carrying that product's id. -/
theorem resolveItems_error (db : DB) (items : List OrderItemCreate)
    (hmiss : ∃ it ∈ items, get_product_by_id db it.product_id = none) :
    ∃ it ∈ items, get_product_by_id db it.product_id = none ∧
      resolveItems db items = .error it.product_id := by
  induction items with
  | nil => obtain ⟨it, hit, -⟩ := hmiss; cases hit
  | cons hd rest ih =>
    cases hp : get_product_by_id db hd.product_id with
    | none =>
      refine ⟨hd, List.mem_cons_self hd rest, hp, ?_⟩
      rw [resolveItems, hp]
    | some pr =>
      have hmiss' : ∃ it ∈ rest, get_product_by_id db it.product_id = none := by
        obtain ⟨it, hit, hnone⟩ := hmiss
        rcases List.mem_cons.mp hit with rfl | hit'
        · rw [hp] at hnone; cases hnone
        · exact ⟨it, hit', hnone⟩
      obtain ⟨it, hit, hnone, herr⟩ := ih hmiss'
      refine ⟨it, List.mem_cons_of_mem hd hit, hnone, ?_⟩
      rw [resolveItems, hp, herr]
      rfl

/-- C5: a create_order call in which some line item references a missing
product returns the error carrying an offending (missing) product id of
the item list, and the resulting store equals the input store: no Order
row and no OrderItem row is persisted. -/
theorem create_order_missing_product (db : DB) (data : OrderCreate)
    (oid : Nat) (itemIds : Nat → Nat) (now : Nat)
    (hmiss : ∃ it ∈ data.items, get_product_by_id db it.product_id = none) :
    ∃ it ∈ data.items,
      get_product_by_id db it.product_id = none ∧
      create_order db data oid itemIds now = (.error it.product_id, db) := by
  obtain ⟨it, hit, hnone, herr⟩ := resolveItems_error db data.items hmiss
  refine ⟨it, hit, hnone, ?_⟩
  rw [create_order, herr]

/-- Concrete store and request used to witness the missing-product claim:
product 99999 does not exist. -/
def dbC5 : DB :=
  { users := [{ user_id := 4, name := "Dan", email := "dan@shop.io",
                phone := "4", role := "Customer", password_hash := "h" }]
    products := [
      { product_id := 1, name := "Router", category := "Network",
        price := 10 }]
    orders := []
    orderItems := []
    requests := [] }

/-- The order-creation payload referencing the nonexistent product. -/
def ocC5 : OrderCreate :=
  { user_id := 4
    items := [{ product_id := 1, quantity := 2 },
              { product_id := 99999, quantity := 1 }] }

/-- Witness for C5 at a concrete store. -/
theorem create_order_missing_product_witness :
    ∃ it ∈ ocC5.items,
      get_product_by_id dbC5 it.product_id = none ∧
      create_order dbC5 ocC5 1 (fun n => n + 1) 0 =
        (.error it.product_id, dbC5) :=
  create_order_missing_product dbC5 ocC5 1 (fun n => n + 1) 0
    ⟨{ product_id := 99999, quantity := 1 }, by decide, by decide⟩

/-! Claim C4: order totals and price snapshots. -/

/-- When every item's product exists, the price-resolution loop returns
the items decorated with the snapshotted prices. -/
theorem resolveItems_ok (db : DB) (items : List OrderItemCreate)
    (prices : Nat → ℚ)
    (hp : ∀ it ∈ items,
      (get_product_by_id db it.product_id).map (·.price) =
        some (prices it.product_id)) :
    resolveItems db items = .ok (items.map fun it =>
      ({ product_id := it.product_id, quantity := it.quantity,
         unit_price := prices it.product_id } : ResolvedItem)) := by
  induction items with
  | nil => rfl
  | cons hd rest ih =>
    have hhd := hp hd (List.mem_cons_self hd rest)
    cases hg : get_product_by_id db hd.product_id with
    | none => rw [hg] at hhd; cases hhd
    | some pr =>
      rw [hg] at hhd
      have hpr : pr.price = prices hd.product_id := by simpa using hhd
      rw [resolveItems, hg,
        ih fun it hit => hp it (List.mem_cons_of_mem hd hit)]
      simp [Except.map, hpr]

/-- The running-total loop of create_order computes the sum of the mapped
per-item contributions. -/
theorem foldl_add_map (f : ResolvedItem → ℚ) (l : List ResolvedItem) :
    l.foldl (fun acc x => acc + f x) 0 = (l.map f).sum := by
  rw [List.sum_eq_foldl]
  exact (List.foldl_map f (· + ·) l 0).symm

/-- update_product only rewrites the Product table: the Order and
OrderItem tables are untouched by any product update. -/
theorem update_product_frame (db : DB) (pid : Nat) (u : ProductUpdate) :
    (update_product db pid u).2.orders = db.orders ∧
    (update_product db pid u).2.orderItems = db.orderItems := by
  by_cases he : u.isEmpty = true
  · simp [update_product, he]
  · have hne : u.isEmpty = false := Bool.eq_false_iff.mpr he
    by_cases hm : (db.products.countP fun x => x.product_id == pid) = 0 <;>
      simp [update_product, hne, hm]

/-- Reading back a freshly inserted order: with a fresh order id, the
composed read view is built from the inserted row, the customer row and
exactly the inserted items joined against the product table. -/
theorem get_order_by_id_inserted (db : DB) (orderRow : OrderRow)
    (newItems : List OrderItemRow) (c : UserRow)
    (hfresh : ∀ o ∈ db.orders, o.order_id ≠ orderRow.order_id)
    (hfreshItems : ∀ oi ∈ db.orderItems, oi.order_id ≠ orderRow.order_id)
    (hnewall : ∀ x ∈ newItems, x.order_id = orderRow.order_id)
    (hc : (db.users.find? fun x => x.user_id == orderRow.user_id) = some c) :
    get_order_by_id
      { db with orders := db.orders ++ [orderRow]
                orderItems := db.orderItems ++ newItems }
      orderRow.order_id =
      some { order_id := orderRow.order_id
             order_date := orderRow.order_date
             total_price := orderRow.total_price
             status := orderRow.status
             user_id := orderRow.user_id
             customer_name := c.name
             items := newItems.filterMap fun oi =>
               (db.products.find? fun p => p.product_id == oi.product_id).map
                 fun p =>
                   { order_item_id := oi.order_item_id
                     order_id := oi.order_id
                     quantity := oi.quantity
                     unit_price := oi.unit_price
                     product_id := oi.product_id
                     product_name := p.name
                     product_category := p.category } } := by
  have h1 : ((db.orders ++ [orderRow]).find?
      fun o => o.order_id == orderRow.order_id) = some orderRow := by
    rw [List.find?_append,
      List.find?_eq_none.mpr fun x hx => by simp [hfresh x hx]]
    simp [List.find?]
  have h2 : ((db.orderItems ++ newItems).filter
      fun oi => oi.order_id == orderRow.order_id) = newItems := by
    rw [List.filter_append,
      List.filter_eq_nil_iff.mpr fun x hx => by simp [hfreshItems x hx],
      List.filter_eq_self.mpr fun x hx => by simp [hnewall x hx]]
    simp
  unfold get_order_by_id
  dsimp only
  rw [h1]
  dsimp only
  rw [hc]
  dsimp only
  rw [h2]


/-- The price-resolved item list of a create_order call (abbreviation for
stating the theorems below; hco in each proof shows create_order produces
exactly this). -/
def resolvedOf (data : OrderCreate) (prices : Nat → ℚ) :
    List ResolvedItem :=
  data.items.map fun it =>
    { product_id := it.product_id, quantity := it.quantity,
      unit_price := prices it.product_id }

/-- The Order row inserted by a create_order call. -/
def orderRowOf (data : OrderCreate) (oid now : Nat) (prices : Nat → ℚ) :
    OrderRow :=
  { order_id := oid, order_date := now,
    total_price := (resolvedOf data prices).foldl
      (fun acc r => acc + r.unit_price * (r.quantity : ℚ)) 0,
    status := "Pending", user_id := data.user_id }

/-- The OrderItem rows inserted by a create_order call. -/
def newItemsOf (data : OrderCreate) (oid : Nat) (itemIds : Nat → Nat)
    (prices : Nat → ℚ) : List OrderItemRow :=
  (resolvedOf data prices).enum.map fun ir =>
    { order_item_id := itemIds ir.1, quantity := ir.2.quantity,
      unit_price := ir.2.unit_price, order_id := oid,
      product_id := ir.2.product_id }

/-- The store after a successful create_order call. -/
def insertedDB (db : DB) (data : OrderCreate) (oid : Nat)
    (itemIds : Nat → Nat) (now : Nat) (prices : Nat → ℚ) : DB :=
  { db with
    orders := db.orders ++ [orderRowOf data oid now prices]
    orderItems := db.orderItems ++ newItemsOf data oid itemIds prices }

/-- C4: for an order whose items all reference existing products, the
returned and persisted total_price is the sum over the items of the
snapshotted product price times the quantity, every stored item's
unit_price is the product's price at creation time, and a later
update_product call changes neither the Order rows nor the OrderItem
rows. -/
theorem create_order_total_spec (db : DB) (data : OrderCreate) (oid : Nat)
    (itemIds : Nat → Nat) (now : Nat) (prices : Nat → ℚ)
    (hp : ∀ it ∈ data.items,
      (get_product_by_id db it.product_id).map (·.price) =
        some (prices it.product_id))
    (huser : ∃ u ∈ db.users, u.user_id = data.user_id)
    (hfresh : ∀ o ∈ db.orders, o.order_id ≠ oid)
    (hfreshItems : ∀ oi ∈ db.orderItems, oi.order_id ≠ oid) :
    ∃ v, (create_order db data oid itemIds now).1 = .ok (some v) ∧
      v.total_price =
        (data.items.map fun it =>
          prices it.product_id * (it.quantity : ℚ)).sum ∧
      (∀ i ∈ v.items, i.unit_price = prices i.product_id) ∧
      (((create_order db data oid itemIds now).2.orders.find?
          fun o => o.order_id == oid).map (·.total_price) =
        some v.total_price) ∧
      (∀ pid upd,
        (update_product (create_order db data oid itemIds now).2 pid
          upd).2.orders =
          (create_order db data oid itemIds now).2.orders ∧
        (update_product (create_order db data oid itemIds now).2 pid
          upd).2.orderItems =
          (create_order db data oid itemIds now).2.orderItems) := by
  obtain ⟨u, hu, huid⟩ := huser
  have hres := resolveItems_ok db data.items prices hp
  have hcfind : (db.users.find? fun x => x.user_id == data.user_id).isSome :=
    List.find?_isSome.mpr ⟨u, hu, by simp [huid]⟩
  obtain ⟨c, hc⟩ := Option.isSome_iff_exists.mp hcfind
  have hrs_mem : ∀ r ∈ resolvedOf data prices,
      r.unit_price = prices r.product_id := by
    intro r hr
    obtain ⟨it, -, rfl⟩ := List.mem_map.mp hr
    rfl
  have hnew_mem : ∀ x ∈ newItemsOf data oid itemIds prices,
      x.unit_price = prices x.product_id ∧ x.order_id = oid := by
    intro x hx
    obtain ⟨ir, hir, rfl⟩ := List.mem_map.mp hx
    exact ⟨hrs_mem ir.2 (List.snd_mem_of_mem_enum hir), rfl⟩
  have hco : create_order db data oid itemIds now =
      (.ok (get_order_by_id (insertedDB db data oid itemIds now prices) oid),
        insertedDB db data oid itemIds now prices) := by
    rw [create_order, hres]
    rfl
  have hrow : (orderRowOf data oid now prices).order_id = oid := rfl
  have hview := get_order_by_id_inserted db (orderRowOf data oid now prices)
    (newItemsOf data oid itemIds prices) c hfresh hfreshItems
    (fun x hx => (hnew_mem x hx).2) hc
  have htot : (orderRowOf data oid now prices).total_price =
      (data.items.map fun it =>
        prices it.product_id * (it.quantity : ℚ)).sum := by
    show (resolvedOf data prices).foldl
      (fun acc r => acc + r.unit_price * (r.quantity : ℚ)) 0 = _
    rw [foldl_add_map (fun r => r.unit_price * (r.quantity : ℚ)),
      resolvedOf, List.map_map]
    rfl
  refine ⟨_, by rw [hco]; exact congrArg Except.ok hview, htot, ?_, ?_, ?_⟩
  · intro i hi
    obtain ⟨oi, hoi, hsome⟩ := List.mem_filterMap.mp hi
    cases hg : db.products.find? fun p => p.product_id == oi.product_id with
    | none => rw [hg] at hsome; cases hsome
    | some pr =>
      rw [hg] at hsome
      dsimp only [Option.map] at hsome
      injection hsome with hsome
      rw [← hsome]
      exact (hnew_mem oi hoi).1
  · rw [hco]
    have h1 : ((insertedDB db data oid itemIds now prices).orders.find?
        fun o => o.order_id == oid) =
        some (orderRowOf data oid now prices) := by
      show ((db.orders ++ [orderRowOf data oid now prices]).find?
        fun o => o.order_id == oid) = _
      rw [List.find?_append,
        List.find?_eq_none.mpr fun x hx => by simp [hfresh x hx]]
      simp [List.find?, hrow]
    dsimp only
    rw [h1]
    rfl
  · intro pid upd
    rw [hco]
    exact update_product_frame _ pid upd

/-- Concrete store for the order-total witness: product 1 costs 10,
product 2 costs 25. -/
def dbC4 : DB :=
  { users := [{ user_id := 4, name := "Nia", email := "nia@shop.io",
                phone := "9", role := "Customer", password_hash := "h" }]
    products := [
      { product_id := 1, name := "Router", category := "Network",
        price := 10 },
      { product_id := 2, name := "Camera", category := "Security",
        price := 25 }]
    orders := []
    orderItems := []
    requests := [] }

/-- The order-creation payload of the witness: qty 2 of product 1 and
qty 1 of product 2. -/
def ocC4 : OrderCreate :=
  { user_id := 4
    items := [{ product_id := 1, quantity := 2 },
              { product_id := 2, quantity := 1 }] }

/-- The creation-time price table of the witness store. -/
def pricesC4 : Nat → ℚ := fun pid => if pid = 1 then 10 else 25

/-- Witness for C4 at a concrete store: the created order's total is
exactly 45 = 10 * 2 + 25 * 1. -/
theorem create_order_total_spec_witness :
    ∃ v, (create_order dbC4 ocC4 1 (fun n => n + 1) 0).1 = .ok (some v) ∧
      v.total_price = 45 := by
  obtain ⟨v, h1, h2, -, -, -⟩ :=
    create_order_total_spec dbC4 ocC4 1 (fun n => n + 1) 0 pricesC4
      (by decide) (by decide) (by decide) (by decide)
  refine ⟨v, h1, ?_⟩
  rw [h2]
  simp [ocC4, pricesC4]
  norm_num
